import Mathlib

/-
Verification of the balance/quote aggregation layer of solana-agent-kit.

The JavaScript source is embedded shallowly:
* JavaScript runtime values are the inductive `JsVal` (JSON values plus
  `undefined` and `NaN`, which arise at runtime).
* `async` functions that may throw become `Except JsErr` computations;
  functions that catch all their exceptions return plain values.
* Each network request is answered by an environment (`HttpEnv`): the
  eventual outcome of the provider plus how long the request takes, so that
  client-side timeouts are expressible.
* Numbers are exact rationals; the coercions the client code actually
  exercises (`Number` on null/booleans/numbers, `parseFloat` on numbers,
  arithmetic on numbers with NaN propagation) are modelled exactly, and
  unexercised string-to-number coercion is mapped to NaN.
-/

namespace SolanaAgentKit

/-- JavaScript runtime values: JSON values extended with `undefined` and `NaN`. -/
inductive JsVal where
  | undefined : JsVal
  | null : JsVal
  | nan : JsVal
  | bool : Bool → JsVal
  | num : ℚ → JsVal
  | str : String → JsVal
  | arr : List JsVal → JsVal
  | obj : List (String × JsVal) → JsVal

/-- JavaScript truthiness: `undefined`, `null`, `NaN`, `false`, `0` and the
empty string are falsy; every other value (including arrays and objects) is
truthy. -/
def truthy : JsVal → Bool
  | .undefined => false
  | .null => false
  | .nan => false
  | .bool b => b
  | .num q => q != 0
  | .str s => s != ""
  | .arr _ => true
  | .obj _ => true

/-- The `Number(x)` coercion on the shapes the client code meets; `none`
stands for NaN.  String/array/object coercion is never exercised on a
meaningful value by the embedded code paths and is mapped to NaN. -/
def toNumber : JsVal → Option ℚ
  | .null => some 0
  | .bool b => some (if b then 1 else 0)
  | .num q => some q
  | _ => none

/-- The `Number(x)` coercion as a JavaScript value. -/
def jsNumber (v : JsVal) : JsVal :=
  match toNumber v with
  | some q => .num q
  | none => .nan

/-- `parseFloat(x)`: a numeric argument round-trips; the other shapes the
client can pass here are not numerals and give NaN. -/
def parseFloatJs : JsVal → JsVal
  | .num q => .num q
  | _ => .nan

/-- Typed errors: the JavaScript exceptions and rejections the client code
produces (connection failure, JSON decode failure, provider error payload,
TypeError from property access on nullish, request timeout). -/
inductive JsErr where
  | transport : String → JsErr
  | decode : JsErr
  | rpc : String → JsErr
  | typeError : JsErr
  | timeout : JsErr
  deriving Repr, DecidableEq

/-- Plain property access `v.k`: throws TypeError on `null`/`undefined`,
yields `undefined` on missing keys and non-objects. -/
def jsGet : JsVal → String → Except JsErr JsVal
  | .undefined, _ => .error .typeError
  | .null, _ => .error .typeError
  | .obj fields, k => .ok (((fields.find? (fun p => p.1 == k)).map Prod.snd).getD .undefined)
  | _, _ => .ok .undefined

/-- Optional-chaining access `v?.k`: like `jsGet` but yields `undefined`
instead of throwing on nullish bases. -/
def jsGetOpt (v : JsVal) (k : String) : JsVal :=
  match jsGet v k with
  | .ok x => x
  | .error _ => .undefined

/-- JavaScript multiplication of two values (after `Number` coercion), with
NaN propagation. -/
def jsMul (a b : JsVal) : JsVal :=
  match toNumber a, toNumber b with
  | some x, some y => .num (x * y)
  | _, _ => .nan

/-- JavaScript division of two values.  The embedded code only divides by the
nonzero literal 10^9; division by zero is mapped to NaN. -/
def jsDiv (a b : JsVal) : JsVal :=
  match toNumber a, toNumber b with
  | some x, some y => if y = 0 then .nan else .num (x / y)
  | _, _ => .nan

/-- The comparison `x > 0`; NaN compares false. -/
def jsGtZero (a : JsVal) : Bool :=
  match toNumber a with
  | some x => decide (0 < x)
  | none => false

/-- The test `v.length > 0` as used on `result.value`: positive for nonempty
arrays and strings, false otherwise (`undefined > 0` is false). -/
def jsLenPositive : JsVal → Bool
  | .arr xs => decide (0 < xs.length)
  | .str s => decide (0 < s.length)
  | _ => false

/-- The indexing `v[0]` on a value already known truthy with positive length. -/
def jsIndex0 : JsVal → JsVal
  | .arr (x :: _) => x
  | .str s =>
    match s.data with
    | c :: _ => .str (String.mk [c])
    | [] => .undefined
  | _ => .undefined

/-- String conversion used when a caught value is put in an `Error` message.
Only string messages are exercised by the verified claims. -/
def jsToString : JsVal → String
  | .undefined => "undefined"
  | .null => "null"
  | .nan => "NaN"
  | .bool b => if b then "true" else "false"
  | .str s => s
  | .num q => toString q
  | .arr _ => ""
  | .obj _ => "[object Object]"

/-- The message of `new Error(v)`: empty when `v` is `undefined`, otherwise
the string conversion of `v`. -/
def errMessage (v : JsVal) : String :=
  match v with
  | .undefined => ""
  | v => jsToString v

/-- A registry token descriptor (client.js `TOKENS` entries). -/
structure Token where
  mint : String
  symbol : String
  decimals : ℕ
  name : String
  deriving Repr, DecidableEq

/-- The static token registry, in declaration order (`Object.entries`
iteration order for the `TOKENS` object literal in client.js). -/
def TOKENS : List (String × Token) :=
  [("SOL", ⟨"So11111111111111111111111111111111111111112", "SOL", 9, "Solana"⟩),
   ("USDC", ⟨"EPjFWdd5AufqSSqeM2qN1xzybapC8G4wEGGkZwyTDt1v", "USDC", 6, "USD Coin"⟩),
   ("USDT", ⟨"Es9vMFrzaCERmJfrF4H2FYD4KCoNkY11McCe8BenwNYB", "USDT", 6, "Tether"⟩),
   ("BONK", ⟨"DezXAZ8z7PnrnRJjz3wXBoRgixCa6xjnB7YaB1pPB263", "BONK", 5, "Bonk"⟩),
   ("JUP", ⟨"JUPyiwrYJFskUPiHa7hkeR8VUtAeFoSYbKedZNsDvCN", "JUP", 6, "Jupiter"⟩),
   ("WIF", ⟨"EKpQGSJtjMFqKZ9KQanSqYXRcF8fBopzLHYxdM65zcjm", "WIF", 6, "dogwifhat"⟩),
   ("PYTH", ⟨"HZ1JovNiVvGrGNiiYvEozEVgZ58xaU3RKwX8eACQBCt3", "PYTH", 6, "Pyth Network"⟩)]

/-- Lookup `TOKENS[sym]`. -/
def lookupToken (sym : String) : Option Token :=
  (TOKENS.find? (fun p => p.1 == sym)).map Prod.snd

/-- JavaScript `s.toUpperCase()`, character-wise (the registry symbols are
ASCII, where this agrees with the Unicode-aware library function). -/
def jsToUpper (s : String) : String :=
  String.mk (s.data.map Char.toUpper)

/-- What the provider eventually does with one HTTP/RPC request: reject the
connection, deliver a body that is not valid JSON, or deliver a parsed JSON
body. -/
inductive NetOutcome where
  | err : String → NetOutcome
  | badJson : NetOutcome
  | ok : JsVal → NetOutcome

/-- The environment of a single request: how many milliseconds the provider
takes, and its outcome. -/
structure HttpEnv where
  delayMs : ℕ
  outcome : NetOutcome

/-- What the client-side runtime observes for a request, given the timeout
(if any) the client configured on it. -/
inductive FetchResult where
  | timedOut : FetchResult
  | net : NetOutcome → FetchResult

/-- Runtime semantics of one request: a configured timeout fires when the
provider takes longer than the timeout; with no timeout configured the
client waits for the outcome of the provider however long it takes. -/
def runRequest (timeoutMs : Option ℕ) (env : HttpEnv) : FetchResult :=
  match timeoutMs with
  | some t => if t < env.delayMs then .timedOut else .net env.outcome
  | none => .net env.outcome

/-- Shared JSON-RPC envelope handling (identical in client.js `call` and
scripts/index.js `rpcCall`): `if (json.error) throw new
Error(json.error.message); return json.result;`.  Accessing `.error` on a
nullish body throws a TypeError, which both revisions surface to the caller. -/
def envelopeResult (json : JsVal) : Except JsErr JsVal :=
  match jsGet json "error" with
  | .error e => .error e
  | .ok e =>
    if truthy e then
      match jsGet e "message" with
      | .error e2 => .error e2
      | .ok m => .error (.rpc (errMessage m))
    else
      jsGet json "result"

/-- client.js `call(method, params)`: a single `fetch` POST whose options
carry method, headers and body only — no timeout and no abort signal — then
`response.json()` and envelope handling.  The function consumes exactly one
`NetOutcome`: there is one request per invocation by construction. -/
def call (env : HttpEnv) : Except JsErr JsVal :=
  match runRequest none env with
  | .timedOut => .error .timeout
  | .net (.err m) => .error (.transport m)
  | .net .badJson => .error .decode
  | .net (.ok json) => envelopeResult json

/-- scripts/index.js `rpcCall(method, params)`: the same request and envelope
handling, but the request options set `timeout: 30000` and the timeout event
rejects with an Error whose message is Request timeout. -/
def rpcCall (env : HttpEnv) : Except JsErr JsVal :=
  match runRequest (some 30000) env with
  | .timedOut => .error .timeout
  | .net (.err m) => .error (.transport m)
  | .net .badJson => .error .decode
  | .net (.ok json) => envelopeResult json

/-- `LAMPORTS_PER_SOL` (the BigInt literal, after `Number` coercion). -/
def LAMPORTS_PER_SOL : ℚ := 1000000000

/-- client.js `getBalance(address)`: `Number(result.value) /
Number(LAMPORTS_PER_SOL)`; not wrapped in try/catch, so a failing `call` or a
nullish `result` propagates. -/
def getBalance (env : HttpEnv) : Except JsErr JsVal :=
  match call env with
  | .error e => .error e
  | .ok result =>
    match jsGet result "value" with
    | .error e => .error e
    | .ok v => .ok (jsDiv (jsNumber v) (.num LAMPORTS_PER_SOL))

/-- The access chain `a.account.data.parsed.info.tokenAmount.uiAmount` on the
first returned token account. -/
def uiAmountOf (a : JsVal) : Except JsErr JsVal :=
  (jsGet a "account").bind fun acct =>
  (jsGet acct "data").bind fun dat =>
  (jsGet dat "parsed").bind fun parsed =>
  (jsGet parsed "info").bind fun info =>
  (jsGet info "tokenAmount").bind fun ta =>
  jsGet ta "uiAmount"

/-- The try-block of client.js `getTokenBalance(address, mint)`:
`getTokenAccountsByOwner`, then if `result.value && result.value.length > 0`
take `parseFloat(… .uiAmount || 0)` of the first account, else 0. -/
def getTokenBalanceBody (env : HttpEnv) : Except JsErr JsVal :=
  match call env with
  | .error e => .error e
  | .ok result =>
    match jsGet result "value" with
    | .error e => .error e
    | .ok v =>
      if truthy v && jsLenPositive v then
        match uiAmountOf (jsIndex0 v) with
        | .error e => .error e
        | .ok ui => .ok (parseFloatJs (if truthy ui then ui else .num 0))
      else
        .ok (.num 0)

/-- client.js `getTokenBalance`: the body above inside `try { … } catch (e)
{ return 0; }` — every failure is converted into the result 0. -/
def getTokenBalance (env : HttpEnv) : JsVal :=
  match getTokenBalanceBody env with
  | .ok v => v
  | .error _ => .num 0

/-- The environments answering the network requests one `getAllBalances` run
can issue: the native `getBalance` RPC, the per-mint
`getTokenAccountsByOwner` RPC, and the per-mint price HTTP GET (the price URL
is keyed by the mint address). -/
structure World where
  balanceEnv : HttpEnv
  tokenEnv : String → HttpEnv
  priceEnv : String → HttpEnv

/-- The try-block of `getTokenPrice`: fetch the price endpoint, then
`json.data?.[mint]?.price || null`.  The first `.data` access is unguarded
(throws on a nullish body); the rest is optional chaining. -/
def getTokenPriceBody (mint : String) (env : HttpEnv) : Except JsErr JsVal :=
  match runRequest none env with
  | .timedOut => .error .timeout
  | .net (.err m) => .error (.transport m)
  | .net .badJson => .error .decode
  | .net (.ok json) =>
    match jsGet json "data" with
    | .error e => .error e
    | .ok d =>
      let p := jsGetOpt (jsGetOpt d mint) "price"
      .ok (if truthy p then p else .null)

/-- client.js `getTokenPrice(tokenSymbol)`: registry lookup on the uppercased
symbol (null when absent), then the fetch wrapped in `try { … } catch (e)
{ return null; }`. -/
def getTokenPrice (tokenSymbol : String) (w : World) : JsVal :=
  match lookupToken (jsToUpper tokenSymbol) with
  | none => .null
  | some token =>
    match getTokenPriceBody token.mint (w.priceEnv token.mint) with
    | .ok v => v
    | .error _ => .null

/-- One element of the `balances` array built by `getAllBalances`. -/
structure BalanceEntry where
  token : String
  balance : JsVal
  price : JsVal
  value : JsVal

/-- The entry literal pushed by `getAllBalances`:
`{ token, balance, price, value: price ? balance * price : null }`. -/
def mkEntry (sym : String) (balance price : JsVal) : BalanceEntry :=
  { token := sym, balance := balance, price := price,
    value := if truthy price then jsMul balance price else .null }

/-- The body of the per-token loop in `getAllBalances` for one registry entry
`p`: fetch the token balance, and push an entry (with a best-effort price)
only when the balance is strictly positive.  The loop wraps this in a
try/catch that skips the token, but both `getTokenBalance` and
`getTokenPrice` already handle all their own failures, so no exception
reaches that catch. -/
def rowFor (w : World) (p : String × Token) : Option BalanceEntry :=
  let balance := getTokenBalance (w.tokenEnv p.2.mint)
  if jsGtZero balance then
    some (mkEntry p.1 balance (getTokenPrice p.1 w))
  else
    none

/-- The non-native part of the report: iterate `Object.entries(TOKENS)` in
declaration order, `continue` on the SOL key, and push the surviving rows in
visit order. -/
def tokenRows (w : World) : List BalanceEntry :=
  (TOKENS.filter (fun p => p.1 != "SOL")).filterMap (rowFor w)

/-- client.js `getAllBalances(address)`: native balance and price first (the
SOL entry is pushed unconditionally), then the per-token loop.  The native
`getBalance` is not guarded, so its failure aborts the whole report. -/
def getAllBalances (w : World) : Except JsErr (List BalanceEntry) :=
  match getBalance w.balanceEnv with
  | .error e => .error e
  | .ok solBalance =>
    .ok (mkEntry "SOL" solBalance (getTokenPrice "SOL" w) :: tokenRows w)

/-- The query parameters of the Jupiter quote URL built by
`getJupiterQuote`. -/
structure QuoteRequest where
  inputMint : String
  outputMint : String
  amount : ℤ
  slippageBps : ℕ
  deriving Repr, DecidableEq

/-- The request `getJupiterQuote` issues: the amount parameter is
`Math.floor(amount * Math.pow(10, decimals))` and the slippage is the fixed
50 basis points. -/
def quoteRequestOf (inputMint outputMint : String) (amount : ℚ) (decimals : ℕ) :
    QuoteRequest :=
  ⟨inputMint, outputMint, ⌊amount * (10 : ℚ) ^ decimals⌋, 50⟩

/-- The reply of a quote provider: connection failure, or a response with its `ok`
flag and status, whose body parses to JSON or does not (`none`). -/
inductive HttpReply where
  | down : String → HttpReply
  | up : Bool → ℕ → Option JsVal → HttpReply

/-- client.js `getJupiterQuote(inputMint, outputMint, amount, decimals)`:
build the URL with floor-converted base units, fetch it, throw
`Jupiter API error: status` when `response.ok` is false, else return the
parsed JSON body. -/
def getJupiterQuote (inputMint outputMint : String) (amount : ℚ) (decimals : ℕ)
    (provider : QuoteRequest → HttpReply) : Except JsErr JsVal :=
  match provider (quoteRequestOf inputMint outputMint amount decimals) with
  | .down m => .error (.transport m)
  | .up ok status body =>
    if ok then
      match body with
      | none => .error .decode
      | some j => .ok j
    else
      .error (.rpc ("Jupiter API error: " ++ toString status))

/-- Whether the persisted wallet file parses; `JSON.parse` is modelled as an
oracle outcome since its grammar is not at issue in any claim. -/
inductive ParseOutcome where
  | malformed : ParseOutcome
  | parsed : JsVal → ParseOutcome

/-- The state of the wallet file at its configured path. -/
inductive FileState where
  | absent : FileState
  | present : ParseOutcome → FileState

/-- wallet.js `loadWallet()` (first revision, lines 68-73): null when the
file does not exist, otherwise `JSON.parse` of its contents with no
try/catch — a parse failure propagates as an exception. -/
def loadWallet1 (fs : FileState) : Except JsErr (Option JsVal) :=
  match fs with
  | .absent => .ok none
  | .present .malformed => .error .decode
  | .present (.parsed j) => .ok (some j)

/-- What the second revision of `loadWallet` returns on success. -/
structure LoadedWallet where
  publicKey : String
  secretKey : JsVal

/-- wallet.js `loadWallet()` (second revision, lines 163-180): null when the
file does not exist; otherwise parse, read `data.secretKey`, and rebuild the
keypair, all inside `try { … } catch (e) { console.error(…); return null; }`.
The external `Uint8Array.from` plus `Keypair.fromSecretKey` plus `toBase58`
pipeline is the oracle `fromSecretKey` (none when it throws). -/
def loadWallet2 (fromSecretKey : JsVal → Option String) (fs : FileState) :
    Option LoadedWallet :=
  match fs with
  | .absent => none
  | .present .malformed => none
  | .present (.parsed dat) =>
    match jsGet dat "secretKey" with
    | .error _ => none
    | .ok sk =>
      match fromSecretKey sk with
      | none => none
      | some pk => some ⟨pk, sk⟩

/-- Sample data: a parsed token account with the given UI amount, shaped as
the provider returns it. -/
def sampleAccount (q : ℚ) : JsVal :=
  .obj [("account", .obj [("data", .obj [("parsed", .obj [("info",
      .obj [("tokenAmount", .obj [("uiAmount", .num q)])])])])])]

/-- Sample data: a successful `getTokenAccountsByOwner` envelope holding the
given accounts. -/
def accountsEnvelope (xs : List JsVal) : JsVal :=
  .obj [("result", .obj [("value", .arr xs)])]

/-- Sample data: an immediate successful response with the given body. -/
def okEnv (v : JsVal) : HttpEnv := ⟨0, .ok v⟩

/-- Sample data: a successful `getBalance` envelope holding the given lamport
amount. -/
def lamportsEnvelope (q : ℚ) : JsVal :=
  .obj [("result", .obj [("value", .num q)])]

/-- Sample data: a successful price envelope giving the given mint the given
price. -/
def priceEnvelope (mint : String) (q : ℚ) : JsVal :=
  .obj [("data", .obj [(mint, .obj [("price", .num q)])])]

/-- The USDC registry mint string, used by sample worlds. -/
def usdcMint : String := "EPjFWdd5AufqSSqeM2qN1xzybapC8G4wEGGkZwyTDt1v"

/-- Sample data: a world with 5 SOL, a USDC token account of 7 at price 2,
and empty data elsewhere. -/
def sampleWorld : World :=
  { balanceEnv := okEnv (lamportsEnvelope 5000000000),
    tokenEnv := fun m => if m = usdcMint
      then okEnv (accountsEnvelope [sampleAccount 7, sampleAccount 3])
      else okEnv (accountsEnvelope []),
    priceEnv := fun m => if m = usdcMint
      then okEnv (priceEnvelope usdcMint 2)
      else okEnv (.obj [("data", .obj [])]) }

/-- Sample data: the sample world with the USDC balance lookup failing at the
transport layer. -/
def sampleWorldUsdcDown : World :=
  { sampleWorld with
    tokenEnv := fun m => if m = usdcMint
      then ⟨0, .err "refused"⟩
      else okEnv (accountsEnvelope []) }

/-- A failing `call` inside `getTokenBalance` is caught and becomes the
result 0. -/
theorem getTokenBalance_of_call_error (env : HttpEnv) (e : JsErr)
    (h : call env = .error e) : getTokenBalance env = .num 0 := by
  simp [getTokenBalance, getTokenBalanceBody, h]

/-- Claim C9: when the native-asset balance lookup raises, `getAllBalances`
raises that same error and returns no entries at all; the per-token failure
isolation does not cover the native asset. -/
theorem getAllBalances_native_failure_propagates (w : World) (e : JsErr)
    (h : getBalance w.balanceEnv = .error e) :
    getAllBalances w = .error e ∧ ∀ es, getAllBalances w ≠ .ok es := by
  refine ⟨?_, ?_⟩
  · simp [getAllBalances, h]
  · intro es hes
    rw [getAllBalances, h] at hes
    exact Except.noConfusion hes

/-- Witness for C9, at a connection failure and at a structurally malformed
(null) native-balance response. -/
theorem getAllBalances_native_failure_propagates_witness :
    (getAllBalances ⟨⟨0, .err "node down"⟩, fun _ => ⟨0, .ok .null⟩,
        fun _ => ⟨0, .ok .null⟩⟩ = .error (.transport "node down")) ∧
    (getAllBalances ⟨⟨0, .ok .null⟩, fun _ => ⟨0, .ok .null⟩,
        fun _ => ⟨0, .ok .null⟩⟩ = .error .typeError) :=
  ⟨(getAllBalances_native_failure_propagates
      ⟨⟨0, .err "node down"⟩, fun _ => ⟨0, .ok .null⟩, fun _ => ⟨0, .ok .null⟩⟩
      (.transport "node down") rfl).1,
   (getAllBalances_native_failure_propagates
      ⟨⟨0, .ok .null⟩, fun _ => ⟨0, .ok .null⟩, fun _ => ⟨0, .ok .null⟩⟩
      .typeError rfl).1⟩

/-- Claim C5: when the response envelope carries a (truthy) top-level error,
`call` fails with the message of that error and does not return a result; when the
envelope carries no top-level error, `call` returns the `result`
field of the envelope un-interpreted. -/
theorem call_envelope_error (env : HttpEnv) (json e m : JsVal)
    (henv : env.outcome = .ok json)
    (herr : jsGet json "error" = .ok e) :
    (truthy e = true → jsGet e "message" = .ok m →
      call env = .error (.rpc (errMessage m)) ∧ ∀ r, call env ≠ .ok r) ∧
    (truthy e = false → call env = jsGet json "result") := by
  have hc : call env = envelopeResult json := by
    simp [call, runRequest, henv]
  constructor
  · intro ht hm
    have : call env = .error (.rpc (errMessage m)) := by
      rw [hc, envelopeResult, herr]
      simp [ht, hm]
    exact ⟨this, fun r hr => by rw [this] at hr; exact Except.noConfusion hr⟩
  · intro ht
    rw [hc, envelopeResult, herr]
    simp [ht]

/-- Witness for C5, at an envelope with an error message and at an envelope
with only a result. -/
theorem call_envelope_error_witness :
    (call ⟨0, .ok (.obj [("error", .obj [("message", .str "boom")])])⟩ =
        .error (.rpc "boom") ∧
      ∀ r, call ⟨0, .ok (.obj [("error", .obj [("message", .str "boom")])])⟩ ≠
        .ok r) ∧
    (call ⟨0, .ok (.obj [("result", .num 1)])⟩ = .ok (.num 1)) := by
  refine ⟨?_, ?_⟩
  · exact (call_envelope_error ⟨0, .ok (.obj [("error", .obj [("message", .str "boom")])])⟩
      (.obj [("error", .obj [("message", .str "boom")])])
      (.obj [("message", .str "boom")]) (.str "boom") rfl rfl).1 rfl rfl
  · exact (call_envelope_error ⟨0, .ok (.obj [("result", .num 1)])⟩
      (.obj [("result", .num 1)]) .undefined .undefined rfl rfl).2 rfl

/-- Counterexample to claim C3 as stated: with the provider connection
refused, the failure does not propagate out of `getTokenBalance`; it is
converted into the result 0. -/
theorem getTokenBalance_swallows_cex :
    call ⟨0, .err "connection refused"⟩ = .error (.transport "connection refused") ∧
    getTokenBalance ⟨0, .err "connection refused"⟩ = .num 0 :=
  ⟨rfl, rfl⟩

/-- Claim C3 as amended: network and decode failures inside `call` propagate
to the caller as typed errors, `getBalance` propagates them, and the client
performs no retries (one request per call, the result a function of that
single response) — but `getTokenBalance` catches every failure and returns
the result 0 instead of propagating it. -/
theorem call_propagates_getTokenBalance_swallows (env : HttpEnv) (m : String) :
    (env.outcome = .err m →
      call env = .error (.transport m) ∧ getBalance env = .error (.transport m)) ∧
    (env.outcome = .badJson →
      call env = .error .decode ∧ getBalance env = .error .decode) ∧
    (∀ env2 : HttpEnv, env2.outcome = env.outcome → call env2 = call env) ∧
    ((∃ e, call env = .error e) → getTokenBalance env = .num 0) := by
  refine ⟨?_, ?_, ?_, ?_⟩
  · intro h
    have hc : call env = .error (.transport m) := by simp [call, runRequest, h]
    exact ⟨hc, by simp [getBalance, hc]⟩
  · intro h
    have hc : call env = .error .decode := by simp [call, runRequest, h]
    exact ⟨hc, by simp [getBalance, hc]⟩
  · intro env2 h
    simp [call, runRequest, h]
  · rintro ⟨e, he⟩
    exact getTokenBalance_of_call_error env e he

/-- Witness for the amended C3, at a refused connection. -/
theorem call_propagates_getTokenBalance_swallows_witness :
    call ⟨7, .err "refused"⟩ = .error (.transport "refused") ∧
    getBalance ⟨7, .err "refused"⟩ = .error (.transport "refused") ∧
    getTokenBalance ⟨7, .err "refused"⟩ = .num 0 :=
  ⟨((call_propagates_getTokenBalance_swallows ⟨7, .err "refused"⟩ "refused").1 rfl).1,
   ((call_propagates_getTokenBalance_swallows ⟨7, .err "refused"⟩ "refused").1 rfl).2,
   (call_propagates_getTokenBalance_swallows ⟨7, .err "refused"⟩ "refused").2.2.2
     ⟨.transport "refused", rfl⟩⟩

/-- Counterexample to claim C4 as stated: a `call` whose request takes 31
seconds still succeeds with the result from the provider — the fetch-based `call`
configures no timeout, so exceeding 30 seconds does not fail with a timeout
error. -/
theorem call_no_timeout_cex :
    30000 < 31000 ∧
    call ⟨31000, .ok (.obj [("result", .num 1)])⟩ = .ok (.num 1) :=
  ⟨by norm_num, rfl⟩

/-- Claim C4 as amended: the scripts-revision `rpcCall` carries the fixed
30-second timeout and fails with the timeout error whenever the request
exceeds 30 seconds; the fetch-based `call` in client.js configures no
timeout, and its outcome is independent of how long the request takes. -/
theorem rpcCall_timeout_call_untimed (env : HttpEnv) :
    (30000 < env.delayMs → rpcCall env = .error .timeout) ∧
    (∀ d : ℕ, call ⟨d, env.outcome⟩ = call env) := by
  constructor
  · intro h
    simp [rpcCall, runRequest, h]
  · intro d
    simp [call, runRequest]

/-- Witness for the amended C4, at a request that takes 31 seconds. -/
theorem rpcCall_timeout_call_untimed_witness :
    rpcCall ⟨31000, .ok (.obj [("result", .num 1)])⟩ = .error .timeout ∧
    call ⟨31000, .ok (.obj [("result", .num 1)])⟩ =
      call ⟨0, .ok (.obj [("result", .num 1)])⟩ :=
  ⟨(rpcCall_timeout_call_untimed ⟨31000, .ok (.obj [("result", .num 1)])⟩).1
      (by norm_num),
   (rpcCall_timeout_call_untimed ⟨0, .ok (.obj [("result", .num 1)])⟩).2 31000⟩

/-- Claim C6: `getTokenBalance` returns 0 when the provider returns zero
matching token accounts, and otherwise returns the parsed UI amount of the
first matching account only — later accounts for the same mint are ignored,
never summed. -/
theorem getTokenBalance_first_account_only (env : HttpEnv) (res : JsVal)
    (accounts : List JsVal) (q : ℚ)
    (h0 : call env = .ok res)
    (hv : jsGet res "value" = .ok (.arr accounts)) :
    (accounts = [] → getTokenBalance env = .num 0) ∧
    (∀ a rest, accounts = a :: rest → uiAmountOf a = .ok (.num q) →
      getTokenBalance env = .num q) := by
  constructor
  · rintro rfl
    simp [getTokenBalance, getTokenBalanceBody, h0, hv, truthy, jsLenPositive]
  · rintro a rest rfl hui
    by_cases hq : q = 0
    · subst hq
      simp [getTokenBalance, getTokenBalanceBody, h0, hv, truthy, jsLenPositive,
        jsIndex0, hui, parseFloatJs]
    · simp [getTokenBalance, getTokenBalanceBody, h0, hv, truthy, jsLenPositive,
        jsIndex0, hui, parseFloatJs, hq]

/-- Witness for C6: with two accounts of UI amounts 2 and 3 for the same
mint, the result is 2 (the first account), not the sum 5; with zero
accounts, the result is 0. -/
theorem getTokenBalance_first_account_only_witness :
    getTokenBalance (okEnv (accountsEnvelope [sampleAccount 2, sampleAccount 3])) =
      .num 2 ∧
    getTokenBalance (okEnv (accountsEnvelope [])) = .num 0 ∧
    (2 : ℚ) ≠ 2 + 3 := by
  refine ⟨?_, ?_, by norm_num⟩
  · exact (getTokenBalance_first_account_only
      (okEnv (accountsEnvelope [sampleAccount 2, sampleAccount 3]))
      (.obj [("value", .arr [sampleAccount 2, sampleAccount 3])])
      [sampleAccount 2, sampleAccount 3] 2 rfl rfl).2
      (sampleAccount 2) [sampleAccount 3] rfl rfl
  · exact (getTokenBalance_first_account_only
      (okEnv (accountsEnvelope []))
      (.obj [("value", .arr [])]) [] 0 rfl rfl).1 rfl

/-- Claim C7: the swap-quote conversion to base units truncates — the amount
parameter of the request `getJupiterQuote` issues is the floor of
amount times 10 to the decimals, so it never exceeds the exact product
(never rounds up), and the behavior of `getJupiterQuote` depends on the
provider only at that floor-converted request. -/
theorem quote_base_units_floor (inputMint outputMint : String) (amount : ℚ)
    (decimals : ℕ) (provider : QuoteRequest → HttpReply)
    (h : 0 ≤ amount) :
    (((quoteRequestOf inputMint outputMint amount decimals).amount : ℚ) ≤
        amount * (10 : ℚ) ^ decimals) ∧
    (amount * (10 : ℚ) ^ decimals <
        (quoteRequestOf inputMint outputMint amount decimals).amount + 1) ∧
    (0 ≤ (quoteRequestOf inputMint outputMint amount decimals).amount) ∧
    (∀ provider2 : QuoteRequest → HttpReply,
      provider2 (quoteRequestOf inputMint outputMint amount decimals) =
        provider (quoteRequestOf inputMint outputMint amount decimals) →
      getJupiterQuote inputMint outputMint amount decimals provider2 =
        getJupiterQuote inputMint outputMint amount decimals provider) := by
  refine ⟨Int.floor_le _, ?_, ?_, ?_⟩
  · exact Int.lt_floor_add_one (amount * (10 : ℚ) ^ decimals)
  · exact Int.floor_nonneg.mpr (by positivity)
  · intro provider2 hp
    rw [getJupiterQuote, getJupiterQuote, hp]

/-- Witness for C7: amount 1.999999995 with 9 decimals converts to exactly
1999999995 base units by truncation, not the rounded 2000000000. -/
theorem quote_base_units_floor_witness :
    (0 : ℚ) ≤ 1999999995 / 1000000000 ∧
    (quoteRequestOf "inMint" "outMint" (1999999995 / 1000000000 : ℚ) 9).amount =
      1999999995 ∧
    (1999999995 : ℤ) ≠ 2000000000 ∧
    (((quoteRequestOf "inMint" "outMint" (1999999995 / 1000000000 : ℚ) 9).amount : ℚ) ≤
      (1999999995 / 1000000000 : ℚ) * (10 : ℚ) ^ (9 : ℕ)) := by
  refine ⟨by norm_num, ?_, by norm_num, ?_⟩
  · show (⌊(1999999995 / 1000000000 : ℚ) * (10 : ℚ) ^ (9 : ℕ)⌋ : ℤ) = 1999999995
    norm_num
  · exact (quote_base_units_floor "inMint" "outMint" (1999999995 / 1000000000 : ℚ) 9
      (fun _ => .down "unused") (by norm_num)).1

/-- Counterexample to claim C8 as stated: in the second revision of
`loadWallet`, a wallet file that exists but fails to parse yields exactly the
same observable result (null) as no wallet file at all — not a distinct
corrupt-state signal. -/
theorem loadWallet2_corrupt_equals_absent_cex :
    loadWallet2 (fun _ => some "PK") (.present .malformed) = none ∧
    loadWallet2 (fun _ => some "PK") .absent = none ∧
    loadWallet2 (fun _ => some "PK") (.present .malformed) =
      loadWallet2 (fun _ => some "PK") .absent :=
  ⟨rfl, rfl, rfl⟩

/-- Claim C8 as amended: both revisions of `loadWallet` return the persisted
record when the file exists and parses, and signal absent (null) when no
file exists; on a file that exists but fails to parse, the first revision
propagates the parse error (a signal distinct from absent), while the second
revision catches the failure and returns null, indistinguishable from
absent. -/
theorem loadWallet_absent_corrupt_parsed (f : JsVal → Option String)
    (j sk : JsVal) (pk : String) :
    (loadWallet1 .absent = .ok none) ∧
    (loadWallet1 (.present .malformed) = .error .decode) ∧
    (∀ o, loadWallet1 (.present .malformed) ≠ .ok o) ∧
    (loadWallet1 (.present (.parsed j)) = .ok (some j)) ∧
    (loadWallet2 f .absent = none) ∧
    (loadWallet2 f (.present .malformed) = none) ∧
    (jsGet j "secretKey" = .ok sk → f sk = some pk →
      loadWallet2 f (.present (.parsed j)) = some ⟨pk, sk⟩) := by
  refine ⟨rfl, rfl, fun o ho => Except.noConfusion ho, rfl, rfl, rfl, ?_⟩
  intro hsk hf
  simp [loadWallet2, hsk, hf]

/-- Witness for the amended C8, at a parsed wallet object with a secret key
the external keypair library accepts. -/
theorem loadWallet_absent_corrupt_parsed_witness :
    loadWallet1 (.present (.parsed (.obj [("secretKey", .arr [.num 1])]))) =
      .ok (some (.obj [("secretKey", .arr [.num 1])])) ∧
    loadWallet2 (fun _ => some "PK")
        (.present (.parsed (.obj [("secretKey", .arr [.num 1])]))) =
      some ⟨"PK", .arr [.num 1]⟩ :=
  ⟨(loadWallet_absent_corrupt_parsed (fun _ => some "PK")
      (.obj [("secretKey", .arr [.num 1])]) (.arr [.num 1]) "PK").2.2.2.1,
   (loadWallet_absent_corrupt_parsed (fun _ => some "PK")
      (.obj [("secretKey", .arr [.num 1])]) (.arr [.num 1]) "PK").2.2.2.2.2.2
      rfl rfl⟩

/-- A row emitted by the per-token loop carries its registry symbol as
token, has a strictly positive balance, and is exactly the entry the loop
builds from the lookups of that token. -/
theorem rowFor_token (w : World) (p : String × Token) (ent : BalanceEntry)
    (h : rowFor w p = some ent) :
    ent.token = p.1 ∧ jsGtZero ent.balance = true ∧
      ent = mkEntry p.1 (getTokenBalance (w.tokenEnv p.2.mint)) (getTokenPrice p.1 w) := by
  unfold rowFor at h
  by_cases hb : jsGtZero (getTokenBalance (w.tokenEnv p.2.mint)) = true
  · simp only [hb, if_true] at h
    injection h with h
    subst h
    exact ⟨rfl, hb, rfl⟩
  · simp only [hb] at h
    simp at h

/-- Every entry of the non-native part of the report comes from a non-SOL
row of a registry token. -/
theorem mem_tokenRows (w : World) (ent : BalanceEntry) (h : ent ∈ tokenRows w) :
    ∃ p, p ∈ TOKENS ∧ p.1 ≠ "SOL" ∧ rowFor w p = some ent := by
  unfold tokenRows at h
  rcases List.mem_filterMap.mp h with ⟨p, hp, hrow⟩
  rcases List.mem_filter.mp hp with ⟨hmem, hne⟩
  exact ⟨p, hmem, by simpa using hne, hrow⟩

/-- The registry keys are mutually distinct: a symbol determines its entry. -/
theorem tokens_keys_functional :
    ∀ p ∈ TOKENS, ∀ q ∈ TOKENS, p.1 = q.1 → p = q := by decide

/-- The registry mints are mutually distinct: a mint determines its entry. -/
theorem tokens_mints_functional :
    ∀ p ∈ TOKENS, ∀ q ∈ TOKENS, p.2.mint = q.2.mint → p = q := by decide

/-- `getTokenPrice` reads the world only through its price environments. -/
theorem getTokenPrice_congr (s : String) (w w2 : World)
    (h : w2.priceEnv = w.priceEnv) : getTokenPrice s w2 = getTokenPrice s w := by
  unfold getTokenPrice
  rw [h]

/-- The row of a token depends on the world only through the balance
environment of that token and the price environments. -/
theorem rowFor_congr (w w2 : World) (hp : w2.priceEnv = w.priceEnv)
    (p : String × Token) (hm : w2.tokenEnv p.2.mint = w.tokenEnv p.2.mint) :
    rowFor w2 p = rowFor w p := by
  unfold rowFor
  rw [hm, getTokenPrice_congr p.1 w w2 hp]

/-- The zero balance is not strictly positive. -/
theorem jsGtZero_num_zero : jsGtZero (.num 0) = false := by
  simp [jsGtZero, toNumber]

/-- The tokens of a filterMap whose rows carry their keys form a sublist of
the keys, in order. -/
theorem filterMap_token_sublist (l : List (String × Token))
    (f : String × Token → Option BalanceEntry)
    (hf : ∀ p ∈ l, ∀ ent, f p = some ent → ent.token = p.1) :
    List.Sublist ((l.filterMap f).map (fun ent => ent.token))
      (l.map (fun p => p.1)) := by
  induction l with
  | nil => simp
  | cons p l ih =>
    have ih2 := ih (fun q hq ent he => hf q (List.mem_cons_of_mem p hq) ent he)
    rw [List.filterMap_cons]
    cases hfp : f p with
    | none =>
      exact ih2.trans (List.sublist_cons_self p.1 (l.map (fun q => q.1)))
    | some ent =>
      rw [List.map_cons, List.map_cons, hf p (List.mem_cons_self p l) ent hfp]
      exact ih2.cons₂ p.1

/-- Two row functions that carry their keys and agree off one symbol produce
reports that agree once the entries of that symbol are filtered away. -/
theorem filterMap_filter_congr (l : List (String × Token))
    (f g : String × Token → Option BalanceEntry) (sym : String)
    (hf : ∀ p ∈ l, ∀ ent, f p = some ent → ent.token = p.1)
    (hg : ∀ p ∈ l, ∀ ent, g p = some ent → ent.token = p.1)
    (hagree : ∀ p ∈ l, p.1 ≠ sym → f p = g p) :
    (l.filterMap f).filter (fun ent => ent.token != sym) =
      (l.filterMap g).filter (fun ent => ent.token != sym) := by
  induction l with
  | nil => rfl
  | cons p l ih =>
    have ih2 := ih (fun q hq ent he => hf q (List.mem_cons_of_mem p hq) ent he)
      (fun q hq ent he => hg q (List.mem_cons_of_mem p hq) ent he)
      (fun q hq hqs => hagree q (List.mem_cons_of_mem p hq) hqs)
    rw [List.filterMap_cons, List.filterMap_cons]
    by_cases hp : p.1 = sym
    · cases hfp : f p with
      | none =>
        cases hgp : g p with
        | none => exact ih2
        | some ent2 =>
          have ht2 : ent2.token = p.1 := hg p (List.mem_cons_self p l) ent2 hgp
          simp [List.filter_cons, ht2, hp, ih2]
      | some ent =>
        have ht : ent.token = p.1 := hf p (List.mem_cons_self p l) ent hfp
        cases hgp : g p with
        | none =>
          simp [List.filter_cons, ht, hp, ih2]
        | some ent2 =>
          have ht2 : ent2.token = p.1 := hg p (List.mem_cons_self p l) ent2 hgp
          simp [List.filter_cons, ht, ht2, hp, ih2]
    · rw [hagree p (List.mem_cons_self p l) hp]
      cases hgp : g p with
      | none => exact ih2
      | some ent =>
        rw [List.filter_cons, List.filter_cons]
        cases hc : (ent.token != sym) <;> simp [hc, ih2]

/-- Claim C1: `getAllBalances` never raises because a single non-native
balance lookup of one token failed — whether the whole report is an error depends
only on the native lookup; the failing token is skipped (no entry emitted);
and, compared with any world differing only at the lookup of that token, the
entries of every other token are unchanged. -/
theorem getAllBalances_skips_failed_token (w : World) (sym : String)
    (tok : Token) (e : JsErr)
    (hmem : (sym, tok) ∈ TOKENS) (hsol : sym ≠ "SOL")
    (hfail : call (w.tokenEnv tok.mint) = .error e) :
    ((∃ es, getAllBalances w = .ok es) ↔ ∃ b, getBalance w.balanceEnv = .ok b) ∧
    (∀ es, getAllBalances w = .ok es → ∀ ent ∈ es, ent.token ≠ sym) ∧
    (∀ w2 : World, w2.balanceEnv = w.balanceEnv → w2.priceEnv = w.priceEnv →
      (∀ k, k ≠ tok.mint → w2.tokenEnv k = w.tokenEnv k) →
      ∀ es es2, getAllBalances w = .ok es → getAllBalances w2 = .ok es2 →
        es.filter (fun ent => ent.token != sym) =
          es2.filter (fun ent => ent.token != sym)) := by
  have hzero : getTokenBalance (w.tokenEnv tok.mint) = .num 0 :=
    getTokenBalance_of_call_error _ e hfail
  refine ⟨?_, ?_, ?_⟩
  · cases hb : getBalance w.balanceEnv <;> simp [getAllBalances, hb]
  · intro es hes ent hent
    cases hb : getBalance w.balanceEnv with
    | error e2 =>
      rw [getAllBalances, hb] at hes
      exact Except.noConfusion hes
    | ok sb =>
      rw [getAllBalances, hb] at hes
      injection hes with hes
      subst hes
      rcases List.mem_cons.mp hent with hhead | htail
      · rw [hhead]
        show "SOL" ≠ sym
        exact Ne.symm hsol
      · rcases mem_tokenRows w ent htail with ⟨p, hpmem, hpsol, hrow⟩
        rcases rowFor_token w p ent hrow with ⟨htop, hpos, _⟩
        intro hts
        have hpeq : p = (sym, tok) :=
          tokens_keys_functional p hpmem (sym, tok) hmem (by rw [← htop, hts])
        rw [hpeq] at hrow
        rcases rowFor_token w (sym, tok) ent hrow with ⟨_, hpos2, hform2⟩
        rw [hform2] at hpos2
        simp only [mkEntry] at hpos2
        rw [hzero] at hpos2
        rw [jsGtZero_num_zero] at hpos2
        exact Bool.noConfusion hpos2
  · intro w2 hbal hpr htok es es2 hes hes2
    cases hb : getBalance w.balanceEnv with
    | error e2 =>
      rw [getAllBalances, hb] at hes
      exact Except.noConfusion hes
    | ok sb =>
      rw [getAllBalances, hb] at hes
      injection hes with hes
      have hb2 : getBalance w2.balanceEnv = .ok sb := by rw [hbal, hb]
      rw [getAllBalances, hb2] at hes2
      injection hes2 with hes2
      subst hes
      subst hes2
      rw [getTokenPrice_congr "SOL" w w2 hpr]
      rw [List.filter_cons, List.filter_cons]
      have hagree2 : ∀ p ∈ TOKENS.filter (fun p => p.1 != "SOL"), p.1 ≠ sym →
          rowFor w p = rowFor w2 p := by
        intro p hp hps
        have hpmem : p ∈ TOKENS := (List.mem_filter.mp hp).1
        have hmint : p.2.mint ≠ tok.mint := by
          intro hmm
          have : p = (sym, tok) :=
            tokens_mints_functional p hpmem (sym, tok) hmem hmm
          exact hps (by rw [this])
        exact (rowFor_congr w w2 hpr p (htok p.2.mint hmint)).symm
      have htail : (tokenRows w).filter (fun ent => ent.token != sym) =
          (tokenRows w2).filter (fun ent => ent.token != sym) := by
        unfold tokenRows
        exact filterMap_filter_congr _ (rowFor w) (rowFor w2) sym
          (fun p _ ent he => (rowFor_token w p ent he).1)
          (fun p _ ent he => (rowFor_token w2 p ent he).1)
          hagree2
      rw [htail]

/-- Witness for C1: in the sample world whose USDC balance lookup is refused
at the transport layer, the report succeeds, omits USDC, and agrees with the
healthy sample world on every other token. -/
theorem getAllBalances_skips_failed_token_witness :
    ((∃ es, getAllBalances sampleWorldUsdcDown = .ok es) ↔
      ∃ b, getBalance sampleWorldUsdcDown.balanceEnv = .ok b) ∧
    (∀ es, getAllBalances sampleWorldUsdcDown = .ok es →
      ∀ ent ∈ es, ent.token ≠ "USDC") ∧
    (∀ w2 : World, w2.balanceEnv = sampleWorldUsdcDown.balanceEnv →
      w2.priceEnv = sampleWorldUsdcDown.priceEnv →
      (∀ k, k ≠ ("EPjFWdd5AufqSSqeM2qN1xzybapC8G4wEGGkZwyTDt1v" : String) →
        w2.tokenEnv k = sampleWorldUsdcDown.tokenEnv k) →
      ∀ es es2, getAllBalances sampleWorldUsdcDown = .ok es →
        getAllBalances w2 = .ok es2 →
        es.filter (fun ent => ent.token != "USDC") =
          es2.filter (fun ent => ent.token != "USDC")) :=
  getAllBalances_skips_failed_token sampleWorldUsdcDown "USDC"
    ⟨"EPjFWdd5AufqSSqeM2qN1xzybapC8G4wEGGkZwyTDt1v", "USDC", 6, "USD Coin"⟩
    (.transport "refused") (by decide) (by decide) rfl

/-- Claim C2: the report is ordered with the native-asset entry first —
present for every balance, including exactly 0 — followed by entries for
remaining registry tokens in registry declaration order, with every
non-native zero-balance token omitted (every tail entry has a strictly
positive balance). -/
theorem getAllBalances_report_shape (w : World) (es : List BalanceEntry)
    (h : getAllBalances w = .ok es) :
    (∃ sb, getBalance w.balanceEnv = .ok sb ∧
      es.head? = some (mkEntry "SOL" sb (getTokenPrice "SOL" w))) ∧
    (getBalance w.balanceEnv = .ok (.num 0) →
      es.head? = some (mkEntry "SOL" (.num 0) (getTokenPrice "SOL" w))) ∧
    (∀ ent ∈ es.tail, ent.token ≠ "SOL" ∧ jsGtZero ent.balance = true ∧
      ∃ tok : Token, (ent.token, tok) ∈ TOKENS) ∧
    List.Sublist (es.tail.map (fun ent => ent.token))
      ((TOKENS.filter (fun p => p.1 != "SOL")).map (fun p => p.1)) := by
  cases hb : getBalance w.balanceEnv with
  | error e =>
    rw [getAllBalances, hb] at h
    exact Except.noConfusion h
  | ok sb =>
    rw [getAllBalances, hb] at h
    injection h with h
    subst h
    refine ⟨⟨sb, rfl, rfl⟩, ?_, ?_, ?_⟩
    · intro h0
      injection h0 with h0
      rw [h0]
      rfl
    · intro ent hent
      rcases mem_tokenRows w ent hent with ⟨p, hpmem, hpsol, hrow⟩
      rcases rowFor_token w p ent hrow with ⟨htop, hpos, _⟩
      refine ⟨by rw [htop]; exact hpsol, hpos, p.2, ?_⟩
      rw [htop]
      exact hpmem
    · exact filterMap_token_sublist _ (rowFor w)
        (fun p _ ent he => (rowFor_token w p ent he).1)

/-- Witness for C2, at the sample world: the report is the SOL entry (price
unavailable) followed by the USDC entry. -/
theorem getAllBalances_report_shape_witness :
    (∃ sb, getBalance sampleWorld.balanceEnv = .ok sb ∧
      [mkEntry "SOL" (.num 5) .null, mkEntry "USDC" (.num 7) (.num 2)].head? =
        some (mkEntry "SOL" sb (getTokenPrice "SOL" sampleWorld))) ∧
    (∀ ent ∈ [mkEntry "SOL" (.num 5) .null,
        mkEntry "USDC" (.num 7) (.num 2)].tail,
      ent.token ≠ "SOL" ∧ jsGtZero ent.balance = true ∧
        ∃ tok : Token, (ent.token, tok) ∈ TOKENS) ∧
    List.Sublist ([mkEntry "SOL" (.num 5) .null,
        mkEntry "USDC" (.num 7) (.num 2)].tail.map (fun ent => ent.token))
      ((TOKENS.filter (fun p => p.1 != "SOL")).map (fun p => p.1)) := by
  have h : getAllBalances sampleWorld =
      .ok [mkEntry "SOL" (.num 5) .null, mkEntry "USDC" (.num 7) (.num 2)] := by
    simp [getAllBalances, getBalance, call, runRequest, envelopeResult, jsGet,
      truthy, jsDiv, jsNumber, toNumber, LAMPORTS_PER_SOL, getTokenPrice,
      getTokenPriceBody, lookupToken, TOKENS, jsGetOpt, jsToUpper, tokenRows,
      rowFor, getTokenBalance, getTokenBalanceBody, uiAmountOf, jsGtZero,
      jsLenPositive, jsIndex0, parseFloatJs, mkEntry, jsMul, sampleWorld, okEnv,
      lamportsEnvelope, accountsEnvelope, sampleAccount, priceEnvelope, usdcMint,
      List.filterMap_cons, List.filterMap_nil, List.filter_cons, List.filter_nil,
      Except.bind]
    norm_num
  have hs := getAllBalances_report_shape sampleWorld
    [mkEntry "SOL" (.num 5) .null, mkEntry "USDC" (.num 7) (.num 2)] h
  exact ⟨hs.1, hs.2.2.1, hs.2.2.2⟩

/-- Each value `jsMul` produces is a number or NaN, never null. -/
theorem jsMul_ne_null (a b : JsVal) : jsMul a b ≠ .null := by
  unfold jsMul
  cases toNumber a <;> cases toNumber b <;> simp

/-- Every entry of a report is literally the entry object the aggregator
builds. -/
theorem mem_getAllBalances_form (w : World) (es : List BalanceEntry)
    (h : getAllBalances w = .ok es) (ent : BalanceEntry) (hent : ent ∈ es) :
    ∃ s b p, ent = mkEntry s b p := by
  cases hb : getBalance w.balanceEnv with
  | error e =>
    rw [getAllBalances, hb] at h
    exact Except.noConfusion h
  | ok sb =>
    rw [getAllBalances, hb] at h
    injection h with h
    subst h
    rcases List.mem_cons.mp hent with hhead | htail
    · exact ⟨"SOL", sb, getTokenPrice "SOL" w, hhead⟩
    · rcases mem_tokenRows w ent htail with ⟨p, _, _, hrow⟩
      exact ⟨p.1, getTokenBalance (w.tokenEnv p.2.mint), getTokenPrice p.1 w,
        (rowFor_token w p ent hrow).2.2⟩

/-- Claim C10: in every entry `getAllBalances` produces, the value field is
null exactly when the price field is falsy (for a numeric price: null or
zero), and whenever the price is truthy the value is the JavaScript product
of the own balance and price fields of that entry. -/
theorem balanceEntry_value_iff_price (w : World) (es : List BalanceEntry)
    (h : getAllBalances w = .ok es) (ent : BalanceEntry) (hent : ent ∈ es) :
    (truthy ent.price = false → ent.value = .null) ∧
    (truthy ent.price = true →
      ent.value = jsMul ent.balance ent.price ∧ ent.value ≠ .null) ∧
    (∀ q : ℚ, ent.price = .num q → (ent.value ≠ .null ↔ q ≠ 0)) := by
  rcases mem_getAllBalances_form w es h ent hent with ⟨s, b, p, rfl⟩
  refine ⟨?_, ?_, ?_⟩
  · intro hf
    simp only [mkEntry] at hf ⊢
    simp [hf]
  · intro ht
    simp only [mkEntry] at ht ⊢
    constructor
    · simp [ht]
    · simp only [ht, if_true]
      exact jsMul_ne_null b p
  · intro q hq
    simp only [mkEntry] at hq ⊢
    subst hq
    by_cases hq0 : q = 0
    · subst hq0
      simp [truthy]
    · have ht : truthy (.num q) = true := by simp [truthy, hq0]
      simp [ht, jsMul_ne_null, hq0]

/-- Witness for C10, at the sample world: the USDC entry (truthy price 2)
has value balance times price, and the SOL entry (null price) has null
value. -/
theorem balanceEntry_value_iff_price_witness :
    (mkEntry "USDC" (.num 7) (.num 2)).value = jsMul (.num 7) (.num 2) ∧
    (mkEntry "SOL" (.num 5) .null).value = .null := by
  have h : getAllBalances sampleWorld =
      .ok [mkEntry "SOL" (.num 5) .null, mkEntry "USDC" (.num 7) (.num 2)] := by
    simp [getAllBalances, getBalance, call, runRequest, envelopeResult, jsGet,
      truthy, jsDiv, jsNumber, toNumber, LAMPORTS_PER_SOL, getTokenPrice,
      getTokenPriceBody, lookupToken, TOKENS, jsGetOpt, jsToUpper, tokenRows,
      rowFor, getTokenBalance, getTokenBalanceBody, uiAmountOf, jsGtZero,
      jsLenPositive, jsIndex0, parseFloatJs, mkEntry, jsMul, sampleWorld, okEnv,
      lamportsEnvelope, accountsEnvelope, sampleAccount, priceEnvelope, usdcMint,
      List.filterMap_cons, List.filterMap_nil, List.filter_cons, List.filter_nil,
      Except.bind]
    norm_num
  constructor
  · exact ((balanceEntry_value_iff_price sampleWorld _ h
      (mkEntry "USDC" (.num 7) (.num 2)) (by simp)).2.1
      (by norm_num [mkEntry, truthy])).1
  · exact (balanceEntry_value_iff_price sampleWorld _ h
      (mkEntry "SOL" (.num 5) .null) (by simp)).1 rfl

end SolanaAgentKit
